import Mathlib

/-
Shallow embedding of `src/app.py` (sqlalchemy-joins): an N+1-query demo with
five relational record types, a seed routine, a filtered join query builder
with optional loading-strategy directives, a statement counter, and three
demonstration scenarios.  Rows are embedded as structures, the in-memory
store as lists of rows, the ORM session trace as an explicit operation list,
and the statement counter as a record with the source's fields.  ORM
round-trip behaviour (lazy loading versus joined loading) is not part of the
repository's own code; where a claim depends on it the definition is
modelled from the spec and says so in its doc comment.
-/

/-- A `person` row: `Person{id, name}` (src/app.py lines 61-65). -/
structure PersonRow where
  id : Nat
  name : String
deriving Repr, DecidableEq

/-- A `user` row: `User{id, person_id}` (src/app.py lines 68-73). -/
structure UserRow where
  id : Nat
  person_id : Nat
deriving Repr, DecidableEq

/-- A `company` row: `Company{id, name}` (src/app.py lines 76-79). -/
structure CompanyRow where
  id : Nat
  name : String
deriving Repr, DecidableEq

/-- An `account` row: `Account{id, status, company_id}` (src/app.py lines 82-87). -/
structure AccountRow where
  id : Nat
  status : String
  company_id : Nat
deriving Repr, DecidableEq

/-- A `user_account` row: composite-key join entity `UserAccount{account_id, user_id}`
(src/app.py lines 90-95). -/
structure UserAccountRow where
  account_id : Nat
  user_id : Nat
deriving Repr, DecidableEq

/-- The in-memory relational store: one list per table, in insertion order. -/
structure Store where
  persons : List PersonRow
  users : List UserRow
  companies : List CompanyRow
  accounts : List AccountRow
  userAccounts : List UserAccountRow
deriving Repr, DecidableEq

/-- The empty store (fresh schema after `metadata.create_all`). -/
def emptyStore : Store :=
  { persons := [], users := [], companies := [], accounts := [], userAccounts := [] }

/-- One session operation performed by `populate_db`: an insert of a given
record type, a `session.flush()`, or a `session.commit()`. -/
inductive Op where
  | addPerson
  | addUser
  | addCompany
  | addAccount
  | addUserAccount
  | flush
  | commit
deriving Repr, DecidableEq

/-- A session during seeding: the store plus the trace of operations issued. -/
structure Sess where
  db : Store
  trace : List Op
deriving Repr, DecidableEq

/-- The fresh session at the start of `populate_db`. -/
def emptySess : Sess := { db := emptyStore, trace := [] }

/-- One iteration of the `populate_db` loop body (src/app.py lines 102-117):
creates one Person/User/Company/Account/UserAccount chain, adding and
flushing after each insert and committing at the end of the chain.
Autoincrement primary keys are assigned sequentially from 1, as the SQLite
store does at flush time.  Note that the account status on line 111 is the
plain string literal `"x{i}"`, not an f-string. -/
def addChain (s : Sess) (i : Nat) : Sess :=
  let person : PersonRow := { id := s.db.persons.length + 1, name := "test" ++ toString i }
  let s : Sess := { db := { s.db with persons := s.db.persons ++ [person] },
                    trace := s.trace ++ [Op.addPerson, Op.flush] }
  let user : UserRow := { id := s.db.users.length + 1, person_id := person.id }
  let s : Sess := { db := { s.db with users := s.db.users ++ [user] },
                    trace := s.trace ++ [Op.addUser, Op.flush] }
  let company : CompanyRow := { id := s.db.companies.length + 1, name := "company" ++ toString i }
  let s : Sess := { db := { s.db with companies := s.db.companies ++ [company] },
                    trace := s.trace ++ [Op.addCompany, Op.flush] }
  let account : AccountRow := { id := s.db.accounts.length + 1, status := "x\x7bi\x7d",
                                company_id := company.id }
  let s : Sess := { db := { s.db with accounts := s.db.accounts ++ [account] },
                    trace := s.trace ++ [Op.addAccount, Op.flush] }
  let ua : UserAccountRow := { account_id := account.id, user_id := user.id }
  let s : Sess := { db := { s.db with userAccounts := s.db.userAccounts ++ [ua] },
                    trace := s.trace ++ [Op.addUserAccount, Op.flush, Op.commit] }
  s

/-- `populate_db(n)` (src/app.py lines 98-117): for i in range(n), build one
linked chain per iteration.  Returns the final session state (store plus
operation trace); the Python function returns `None`, its effect being the
store mutation captured here. -/
def populate_db (n : Nat) : Sess :=
  (List.range n).foldl addChain emptySess

/-- The operation pattern of one seeding chain, in source order. -/
def chainOps : List Op :=
  [Op.addPerson, Op.flush, Op.addUser, Op.flush, Op.addCompany, Op.flush,
   Op.addAccount, Op.flush, Op.addUserAccount, Op.flush, Op.commit]

/-- The statement counter (src/app.py lines 24-57): a count and a flag
`do_count`; the flag is set by the context-manager enter and cleared by exit;
the `after_execute` callback increments the count only while the flag is set. -/
structure DBStatementCounter where
  count : Nat
  do_count : Bool
deriving Repr, DecidableEq

namespace DBStatementCounter

/-- `__init__` (src/app.py lines 37-43): count starts at 0, counting disabled. -/
def init : DBStatementCounter := { count := 0, do_count := false }

/-- `__enter__` (src/app.py lines 45-47): enable counting. -/
def enter (c : DBStatementCounter) : DBStatementCounter := { c with do_count := true }

/-- `__exit__` (src/app.py lines 49-50): disable counting; the listener stays
attached and the count is kept. -/
def exit (c : DBStatementCounter) : DBStatementCounter := { c with do_count := false }

/-- `get_count` (src/app.py lines 52-53). -/
def get_count (c : DBStatementCounter) : Nat := c.count

/-- `callback` (src/app.py lines 55-57): fired after every statement executed
on the wrapped connection; increments only while `do_count` is set. -/
def callback (c : DBStatementCounter) : DBStatementCounter :=
  if c.do_count then { c with count := c.count + 1 } else c

end DBStatementCounter

/-- An event in the life of a counter-wrapped connection: entering the scope,
leaving it, or a statement execution (which fires the `after_execute`
callback). -/
inductive CEvent where
  | enter
  | exit
  | exec
deriving Repr, DecidableEq

/-- Apply one connection event to a counter. -/
def applyEvent (c : DBStatementCounter) : CEvent → DBStatementCounter
  | CEvent.enter => c.enter
  | CEvent.exit => c.exit
  | CEvent.exec => c.callback

/-- Run a sequence of connection events through a counter. -/
def runEvents (c : DBStatementCounter) (es : List CEvent) : DBStatementCounter :=
  es.foldl applyEvent c

/-- SQL `LIKE` pattern matching over characters: `%` matches any sequence
(realized by trying every suffix of the subject), `_` any single character,
all other characters match themselves. -/
def likeChars : List Char → List Char → Bool
  | [], s => s.isEmpty
  | '%' :: ps, s => s.tails.any fun t => likeChars ps t
  | _ :: _, [] => false
  | p :: ps, c :: s' => (p == '_' || p == c) && likeChars ps s'

/-- `column.ilike(pattern)`: case-insensitive SQL LIKE, realized by lowering
both sides character by character. -/
def ilike (s pattern : String) : Bool :=
  likeChars (pattern.toList.map Char.toLower) (s.toList.map Char.toLower)

/-- One row of the join `Person -> User -> UserAccount -> Account -> Company`
produced by `.join("user", "my_accounts", "account", "company")`. -/
structure JoinedRow where
  person : PersonRow
  user : UserRow
  ua : UserAccountRow
  account : AccountRow
  company : CompanyRow
deriving Repr, DecidableEq

/-- The inner join along the four relationships, with the join conditions the
relationship declarations imply: `User.person_id = Person.id`,
`UserAccount.user_id = User.id`, `Account.id = UserAccount.account_id`,
`Company.id = Account.company_id` (src/app.py lines 61-95, 131). -/
def joinRows (store : Store) : List JoinedRow :=
  store.persons.flatMap fun p =>
    (store.users.filter fun u => u.person_id == p.id).flatMap fun u =>
      (store.userAccounts.filter fun ua => ua.user_id == u.id).flatMap fun ua =>
        (store.accounts.filter fun a => a.id == ua.account_id).flatMap fun a =>
          (store.companies.filter fun c => c.id == a.company_id).map fun c =>
            { person := p, user := u, ua := ua, account := a, company := c }

/-- A loading-strategy directive: `joinedload(*path)` or `contains_eager(*path)`
with its relationship path. -/
inductive LoadOpt where
  | joinedload (path : List String)
  | containsEager (path : List String)
deriving Repr, DecidableEq

/-- The relationship path a directive addresses. -/
def LoadOpt.path : LoadOpt → List String
  | LoadOpt.joinedload p => p
  | LoadOpt.containsEager p => p

/-- A built query: the filtered joined rows and the attached directives. -/
structure Query where
  rows : List JoinedRow
  options : List LoadOpt
deriving Repr, DecidableEq

/-- The filter of `get_query` (src/app.py lines 133-137): case-insensitive
prefix patterns on Person.name, Account.status and Company.name. -/
def rowFilter (r : JoinedRow) : Bool :=
  ilike r.person.name "test%" && ilike r.account.status "x%" && ilike r.company.name "company%"

/-- `get_query(session, options=None)` (src/app.py lines 126-138): `if not
options: options = []` maps both `None` and `[]` to the empty directive list;
the query joins Person through User, UserAccount, Account, Company and
filters with the three `ilike` patterns. -/
def get_query (store : Store) (options : Option (List LoadOpt)) : Query :=
  let opts : List LoadOpt :=
    match options with
    | none => []
    | some os => os
  { rows := (joinRows store).filter rowFilter, options := opts }

/-- The four relationship paths dereferenced by
`person.user.my_accounts[0].account.company.name` (src/app.py line 151). -/
def chainPaths : List (List String) :=
  [["user"], ["user", "my_accounts"], ["user", "my_accounts", "account"],
   ["user", "my_accounts", "account", "company"]]

/-- Modelled from the spec: whether the supplied directives cover a
relationship path, i.e. instruct the execution layer to materialize that
relation inside the initial round trip ("Directives, when supplied, instruct
the execution layer how to materialize the related chain ... single joined
round-trip vs reuse of already-joined columns", spec section 4.2). -/
def covered (opts : List LoadOpt) (path : List String) : Bool :=
  opts.any fun o => o.path == path

/-- Modelled from the spec: the lazy-load statements fired while dereferencing
the relation chain of a fetched row ("No directives means default lazy
behavior: each relation traversal at access time triggers its own round
trip", spec section 4.2); each uncovered relation traversal executes one
statement against the counted connection, each covered one executes none. -/
def lazyDeref (opts : List LoadOpt) (ctr : DBStatementCounter) : DBStatementCounter :=
  chainPaths.foldl (fun c path => if covered opts path then c else c.callback) ctr

/-- The chain dereference `person.user.my_accounts[0].account.company.name`
(src/app.py line 151) as a fallible lookup against the store: `person.user`
is the first related user or `None`, `my_accounts` the related user-account
rows, `[0]` their head; a missing link raises (AttributeError on `None`,
IndexError on `[0]`), embedded as `Except.error`. -/
def derefChain (store : Store) (p : PersonRow) : Except String String :=
  match store.users.find? fun u => u.person_id == p.id with
  | none => Except.error "AttributeError: user is None"
  | some u =>
    match (store.userAccounts.filter fun ua => ua.user_id == u.id).head? with
    | none => Except.error "IndexError: my_accounts is empty"
    | some ua =>
      match store.accounts.find? fun a => a.id == ua.account_id with
      | none => Except.error "AttributeError: account is None"
      | some a =>
        match store.companies.find? fun c => c.id == a.company_id with
        | none => Except.error "AttributeError: company is None"
        | some c => Except.ok c.name

/-- The common body of the three scenarios (src/app.py lines 141-199): open a
counting scope, build the query, execute it (`result.first()` runs the one
initial select, firing the counter callback once), and if a first row came
back dereference the relation chain, firing one lazy-load statement per
uncovered relation (modelled from the spec, see `lazyDeref`); finally leave
the counting scope.  Returns the counter and the fetched first row. -/
def runScenario (store : Store) (options : Option (List LoadOpt)) :
    DBStatementCounter × Option JoinedRow :=
  let ctr := DBStatementCounter.init.enter
  let q := get_query store options
  let ctr := ctr.callback
  match q.rows.head? with
  | none => (ctr.exit, none)
  | some r => ((lazyDeref q.options ctr).exit, some r)

/-- `simple_query()` (src/app.py lines 141-153): no directives; reports the
final statement count. -/
def simple_query (store : Store) : Nat :=
  ((runScenario store none).1).count

/-- The directives passed by `joinedload_query` (src/app.py lines 163-168). -/
def joinedOpts : List LoadOpt :=
  [LoadOpt.joinedload ["user"],
   LoadOpt.joinedload ["user", "my_accounts"],
   LoadOpt.joinedload ["user", "my_accounts", "account"],
   LoadOpt.joinedload ["user", "my_accounts", "account", "company"]]

/-- `joinedload_query()` (src/app.py lines 156-176): the four `joinedload`
directives; reports the final statement count. -/
def joinedload_query (store : Store) : Nat :=
  ((runScenario store (some joinedOpts)).1).count

/-- The directives passed by `eager_query` (src/app.py lines 186-191). -/
def eagerOpts : List LoadOpt :=
  [LoadOpt.containsEager ["user"],
   LoadOpt.containsEager ["user", "my_accounts"],
   LoadOpt.containsEager ["user", "my_accounts", "account"],
   LoadOpt.containsEager ["user", "my_accounts", "account", "company"]]

/-- `eager_query()` (src/app.py lines 179-199): the four `contains_eager`
directives; reports the final statement count. -/
def eager_query (store : Store) : Nat :=
  ((runScenario store (some eagerOpts)).1).count

/-- The store seeded with `n` chains, as the module top level does with
`populate_db()` (src/app.py line 123). -/
def seededStore (n : Nat) : Store :=
  (populate_db n).db

/-- The i-th seeded person row. -/
def personAt (i : Nat) : PersonRow := { id := i + 1, name := "test" ++ toString i }

/-- The i-th seeded user row, linked to the i-th person. -/
def userAt (i : Nat) : UserRow := { id := i + 1, person_id := i + 1 }

/-- The i-th seeded company row. -/
def companyAt (i : Nat) : CompanyRow := { id := i + 1, name := "company" ++ toString i }

/-- The i-th seeded account row, linked to the i-th company; its status is the
uninterpolated literal. -/
def accountAt (i : Nat) : AccountRow :=
  { id := i + 1, status := "x\x7bi\x7d", company_id := i + 1 }

/-- The i-th seeded user-account row, linking the i-th user to the i-th account. -/
def uaAt (i : Nat) : UserAccountRow := { account_id := i + 1, user_id := i + 1 }

/-- The fully joined row of the i-th seeded chain. -/
def chainRowAt (i : Nat) : JoinedRow :=
  { person := personAt i, user := userAt i, ua := uaAt i, account := accountAt i,
    company := companyAt i }

lemma populate_db_succ (n : Nat) : populate_db (n + 1) = addChain (populate_db n) n := by
  unfold populate_db
  rw [List.range_succ, List.foldl_append]
  rfl

/-- Closed form of the seed routine: after `populate_db n` each table holds
exactly the rows of the `n` chains in order, and the session trace is `n`
repetitions of the per-chain operation pattern. -/
lemma populate_db_eq (n : Nat) :
    populate_db n =
      { db := { persons := (List.range n).map personAt,
                users := (List.range n).map userAt,
                companies := (List.range n).map companyAt,
                accounts := (List.range n).map accountAt,
                userAccounts := (List.range n).map uaAt },
        trace := List.flatten (List.replicate n chainOps) } := by
  induction n with
  | zero => rfl
  | succ n ih =>
      rw [populate_db_succ, ih]
      simp [addChain, List.range_succ, List.replicate_succ', List.flatten_append,
        personAt, userAt, companyAt, accountAt, uaAt, chainOps]

lemma seededStore_eq (n : Nat) :
    seededStore n =
      { persons := (List.range n).map personAt,
        users := (List.range n).map userAt,
        companies := (List.range n).map companyAt,
        accounts := (List.range n).map accountAt,
        userAccounts := (List.range n).map uaAt } := by
  unfold seededStore
  rw [populate_db_eq]

lemma callback_do_count (c : DBStatementCounter) : c.callback.do_count = c.do_count := by
  unfold DBStatementCounter.callback
  split <;> rfl

lemma callback_count_of_do_count (c : DBStatementCounter) (h : c.do_count = true) :
    c.callback.count = c.count + 1 := by
  unfold DBStatementCounter.callback
  rw [h]
  simp

/-- Executing `k` statements inside the counting scope adds exactly `k`. -/
lemma runEvents_exec_count (k : Nat) (c : DBStatementCounter) (h : c.do_count = true) :
    (runEvents c (List.replicate k CEvent.exec)).count = c.count + k := by
  induction k generalizing c with
  | zero => rfl
  | succ k ih =>
      rw [List.replicate_succ]
      show (runEvents c.callback (List.replicate k CEvent.exec)).count = c.count + (k + 1)
      rw [ih c.callback (by rw [callback_do_count, h]), callback_count_of_do_count c h]
      omega

lemma applyEvent_count_le (c : DBStatementCounter) (e : CEvent) :
    c.count ≤ (applyEvent c e).count := by
  cases e with
  | enter => exact Nat.le_refl _
  | exit => exact Nat.le_refl _
  | exec =>
      show c.count ≤ c.callback.count
      unfold DBStatementCounter.callback
      split <;> simp

/-- The counter is never reset: over any event sequence the count is
non-decreasing. -/
lemma runEvents_count_le (c : DBStatementCounter) (es : List CEvent) :
    c.count ≤ (runEvents c es).count := by
  induction es generalizing c with
  | nil => exact Nat.le_refl _
  | cons e es ih =>
      exact Nat.le_trans (applyEvent_count_le c e) (ih (applyEvent c e))

/-- The deref loop adds one statement per uncovered path of the list. -/
lemma foldl_cover_count (opts : List LoadOpt) (l : List (List String)) (c : DBStatementCounter)
    (h : c.do_count = true) :
    (l.foldl (fun c path => if covered opts path then c else c.callback) c).count
      = c.count + (l.filter fun p => !covered opts p).length := by
  induction l generalizing c with
  | nil => simp [List.foldl]
  | cons p l ih =>
      simp only [List.foldl_cons, List.filter_cons]
      cases hc : covered opts p with
      | true => simp [hc, ih c h]
      | false =>
          simp only [hc, Bool.not_false, Bool.false_eq_true, if_false, if_true,
            List.length_cons]
          rw [ih c.callback (by rw [callback_do_count, h]), callback_count_of_do_count c h]
          omega

/-- The joined-load scenario always reports exactly one statement: the four
chain paths are all covered by its directives, so the dereference fires no
lazy loads. -/
lemma joinedload_query_eq_one (store : Store) : joinedload_query store = 1 := by
  unfold joinedload_query runScenario
  cases h : (get_query store (some joinedOpts)).rows.head? with
  | none =>
      simp only [h]
      rfl
  | some r =>
      simp only [h]
      rfl

/-- The contains-eager scenario always reports exactly one statement. -/
lemma eager_query_eq_one (store : Store) : eager_query store = 1 := by
  unfold eager_query runScenario
  cases h : (get_query store (some eagerOpts)).rows.head? with
  | none =>
      simp only [h]
      rfl
  | some r =>
      simp only [h]
      rfl

/-- The no-strategy scenario reports one statement when the query is empty and
five (the initial select plus four lazy loads) when a first row exists. -/
lemma simple_query_eq (store : Store) :
    simple_query store = if (get_query store none).rows.head?.isNone then 1 else 5 := by
  unfold simple_query runScenario
  cases h : (get_query store none).rows.head? with
  | none =>
      simp only [h]
      rfl
  | some r =>
      simp only [h]
      rfl

/-- The joined row of chain 0 is in the query result of every seeded store
with at least one chain: it satisfies all join conditions and all three
filters. -/
lemma chainRow_mem_rows (n : Nat) (h : 0 < n) (opts : Option (List LoadOpt)) :
    chainRowAt 0 ∈ (get_query (seededStore n) opts).rows := by
  have hmem : chainRowAt 0 ∈ joinRows (seededStore n) := by
    rw [seededStore_eq]
    unfold joinRows
    simp only [List.mem_flatMap, List.mem_filter, List.mem_map]
    exact ⟨personAt 0, ⟨0, List.mem_range.mpr h, rfl⟩,
      userAt 0, ⟨⟨0, List.mem_range.mpr h, rfl⟩, by decide⟩,
      uaAt 0, ⟨⟨0, List.mem_range.mpr h, rfl⟩, by decide⟩,
      accountAt 0, ⟨⟨0, List.mem_range.mpr h, rfl⟩, by decide⟩,
      companyAt 0, ⟨⟨0, List.mem_range.mpr h, rfl⟩, by decide⟩, rfl⟩
  exact List.mem_filter.mpr ⟨hmem, by decide⟩

lemma seeded_rows_ne_nil (n : Nat) (h : 0 < n) (opts : Option (List LoadOpt)) :
    (get_query (seededStore n) opts).rows ≠ [] :=
  List.ne_nil_of_mem (chainRow_mem_rows n h opts)

lemma likeChars_percent (ps : List Char) (s : List Char) :
    likeChars ('%' :: ps) s = s.tails.any fun t => likeChars ps t := by
  cases s <;> rfl

lemma likeChars_percent_nil (s : List Char) : likeChars ['%'] s = true := by
  rw [likeChars_percent, List.any_eq_true]
  exact ⟨[], (List.mem_tails _ _).mpr List.nil_suffix, rfl⟩

set_option maxRecDepth 4000

/-- `ilike(s, "test%")` is exactly the case-insensitive prefix test for `test`. -/
lemma ilike_test_iff (s : String) :
    ilike s "test%" = true ↔ (s.toList.map Char.toLower).take 4 = "test".toList := by
  unfold ilike
  rw [show ("test%".toList.map Char.toLower) = ['t', 'e', 's', 't', '%'] from rfl,
    show ("test".toList : List Char) = ['t', 'e', 's', 't'] from rfl]
  rcases s.toList.map Char.toLower with _ | ⟨a, _ | ⟨b, _ | ⟨c, _ | ⟨d, t⟩⟩⟩⟩ <;>
    simp [likeChars, likeChars_percent_nil, List.take] <;> tauto

/-- `ilike(s, "x%")` is exactly the case-insensitive prefix test for `x`. -/
lemma ilike_x_iff (s : String) :
    ilike s "x%" = true ↔ (s.toList.map Char.toLower).take 1 = "x".toList := by
  unfold ilike
  rw [show ("x%".toList.map Char.toLower) = ['x', '%'] from rfl,
    show ("x".toList : List Char) = ['x'] from rfl]
  rcases s.toList.map Char.toLower with _ | ⟨a, t⟩ <;>
    simp [likeChars, likeChars_percent_nil, List.take] <;> tauto

/-- `ilike(s, "company%")` is exactly the case-insensitive prefix test for
`company`. -/
lemma ilike_company_iff (s : String) :
    ilike s "company%" = true ↔ (s.toList.map Char.toLower).take 7 = "company".toList := by
  unfold ilike
  rw [show ("company%".toList.map Char.toLower) = ['c', 'o', 'm', 'p', 'a', 'n', 'y', '%'] from rfl,
    show ("company".toList : List Char) = ['c', 'o', 'm', 'p', 'a', 'n', 'y'] from rfl]
  rcases s.toList.map Char.toLower with _ | ⟨a, _ | ⟨b, _ | ⟨c, _ | ⟨d, _ | ⟨e, _ | ⟨f, _ | ⟨g, t⟩⟩⟩⟩⟩⟩⟩ <;>
    simp [likeChars, likeChars_percent_nil, List.take] <;> tauto

/-- C1: For every number N of seeded chains, the no-strategy scenario
(`simple_query`) reports a statement count greater than or equal to the
statement count reported by the joined-load scenario and by the
contains-eager scenario for the same query and first-result dereference
path. -/
theorem no_strategy_count_ge_eager (n : Nat) :
    joinedload_query (seededStore n) ≤ simple_query (seededStore n) ∧
    eager_query (seededStore n) ≤ simple_query (seededStore n) := by
  rw [joinedload_query_eq_one, eager_query_eq_one, simple_query_eq]
  split <;> simp

/-- C2: For every seeded store with at least one matching chain, both the
joined-load scenario and the contains-eager scenario execute exactly one
statement (count == 1) covering the initial select plus the full
relation-chain dereference of the first result: the count is 1 and a first
result exists (so the dereference path is taken, firing no further
statements). -/
theorem eager_strategies_single_statement (n : Nat) (h : 0 < n) :
    joinedload_query (seededStore n) = 1 ∧
    eager_query (seededStore n) = 1 ∧
    (get_query (seededStore n) (some joinedOpts)).rows ≠ [] ∧
    (get_query (seededStore n) (some eagerOpts)).rows ≠ [] :=
  ⟨joinedload_query_eq_one _, eager_query_eq_one _,
    seeded_rows_ne_nil n h _, seeded_rows_ne_nil n h _⟩

/-- Witness for C2 at n = 1. -/
theorem eager_strategies_single_statement_witness :
    0 < 1 ∧
    (joinedload_query (seededStore 1) = 1 ∧
      eager_query (seededStore 1) = 1 ∧
      (get_query (seededStore 1) (some joinedOpts)).rows ≠ [] ∧
      (get_query (seededStore 1) (some eagerOpts)).rows ≠ []) :=
  ⟨Nat.zero_lt_one, eager_strategies_single_statement 1 Nat.zero_lt_one⟩

/-- C3: While inside its entered scope the counter increments exactly once per
statement executed against the wrapped connection (`k` executions add exactly
`k`); before `__enter__` (fresh `init` state) and after `__exit__` the
callback leaves the count unchanged; `get_count` returns the current count. -/
theorem counter_counts_in_scope_only (c : DBStatementCounter) (k : Nat) :
    (runEvents c.enter (List.replicate k CEvent.exec)).count = c.count + k ∧
    DBStatementCounter.init.callback.count = DBStatementCounter.init.count ∧
    c.exit.callback.count = c.exit.count ∧
    c.get_count = c.count := by
  refine ⟨?_, rfl, rfl, rfl⟩
  have h := runEvents_exec_count k c.enter rfl
  rwa [show c.enter.count = c.count from rfl] at h

/-- C4: Every row returned by `get_query` (for any store and any directives)
is a Person row joined transitively through User, UserAccount, Account and
Company, and satisfies the three case-insensitive prefix filters: its person
name lowercases to a `test`-prefixed string, its account status to an
`x`-prefixed string and its company name to a `company`-prefixed string; any
row violating a prefix is therefore excluded. -/
theorem get_query_rows_joined_and_filtered (store : Store) (options : Option (List LoadOpt))
    (r : JoinedRow) (h : r ∈ (get_query store options).rows) :
    (r.person ∈ store.persons ∧ r.user ∈ store.users ∧ r.ua ∈ store.userAccounts ∧
      r.account ∈ store.accounts ∧ r.company ∈ store.companies) ∧
    (r.user.person_id = r.person.id ∧ r.ua.user_id = r.user.id ∧
      r.account.id = r.ua.account_id ∧ r.company.id = r.account.company_id) ∧
    ((r.person.name.toList.map Char.toLower).take 4 = "test".toList ∧
      (r.account.status.toList.map Char.toLower).take 1 = "x".toList ∧
      (r.company.name.toList.map Char.toLower).take 7 = "company".toList) := by
  have h' := List.mem_filter.mp h
  obtain ⟨hj, hf⟩ := h'
  have hf' : rowFilter r = true := hf
  unfold rowFilter at hf'
  simp only [Bool.and_eq_true] at hf'
  unfold joinRows at hj
  simp only [List.mem_flatMap, List.mem_filter, List.mem_map] at hj
  obtain ⟨p, hp, u, ⟨hu, hul⟩, ua, ⟨hua, hual⟩, a, ⟨ha, hal⟩, c, ⟨hc, hcl⟩, hr⟩ := hj
  subst hr
  simp only [beq_iff_eq] at hul hual hal hcl
  exact ⟨⟨hp, hu, hua, ha, hc⟩, ⟨hul, hual, hal, hcl⟩,
    (ilike_test_iff _).mp hf'.1.1, (ilike_x_iff _).mp hf'.1.2, (ilike_company_iff _).mp hf'.2⟩

/-- Witness for C4: the chain-0 row of a singly seeded store. -/
theorem get_query_rows_joined_and_filtered_witness :
    chainRowAt 0 ∈ (get_query (seededStore 1) none).rows ∧
    (((chainRowAt 0).person ∈ (seededStore 1).persons ∧
        (chainRowAt 0).user ∈ (seededStore 1).users ∧
        (chainRowAt 0).ua ∈ (seededStore 1).userAccounts ∧
        (chainRowAt 0).account ∈ (seededStore 1).accounts ∧
        (chainRowAt 0).company ∈ (seededStore 1).companies) ∧
      ((chainRowAt 0).user.person_id = (chainRowAt 0).person.id ∧
        (chainRowAt 0).ua.user_id = (chainRowAt 0).user.id ∧
        (chainRowAt 0).account.id = (chainRowAt 0).ua.account_id ∧
        (chainRowAt 0).company.id = (chainRowAt 0).account.company_id) ∧
      (((chainRowAt 0).person.name.toList.map Char.toLower).take 4 = "test".toList ∧
        ((chainRowAt 0).account.status.toList.map Char.toLower).take 1 = "x".toList ∧
        ((chainRowAt 0).company.name.toList.map Char.toLower).take 7 = "company".toList)) :=
  ⟨by decide, get_query_rows_joined_and_filtered (seededStore 1) none (chainRowAt 0) (by decide)⟩

/-- C5: `populate_db` with N=10 inserts exactly 10 rows into each of the five
record types, the i-th rows pairwise linked into one chain per iteration,
with deterministic names `test{i}` and `company{i}`, and its session trace is
ten repetitions of add-flush for each of the five inserts with a commit after
each chain.  (The Python function returns `None`; its effect is the store and
trace captured here.) -/
theorem seeding_ten_chains :
    (populate_db 10).db.persons.length = 10 ∧
    (populate_db 10).db.users.length = 10 ∧
    (populate_db 10).db.companies.length = 10 ∧
    (populate_db 10).db.accounts.length = 10 ∧
    (populate_db 10).db.userAccounts.length = 10 ∧
    (∀ i, i < 10 →
      ((populate_db 10).db.persons[i]?).map PersonRow.name = some ("test" ++ toString i) ∧
      ((populate_db 10).db.companies[i]?).map CompanyRow.name = some ("company" ++ toString i) ∧
      ((populate_db 10).db.users[i]?).map UserRow.person_id
        = ((populate_db 10).db.persons[i]?).map PersonRow.id ∧
      ((populate_db 10).db.accounts[i]?).map AccountRow.company_id
        = ((populate_db 10).db.companies[i]?).map CompanyRow.id ∧
      ((populate_db 10).db.userAccounts[i]?).map UserAccountRow.user_id
        = ((populate_db 10).db.users[i]?).map UserRow.id ∧
      ((populate_db 10).db.userAccounts[i]?).map UserAccountRow.account_id
        = ((populate_db 10).db.accounts[i]?).map AccountRow.id) ∧
    (populate_db 10).trace = List.flatten (List.replicate 10 chainOps) := by
  decide

/-- Witness for C5 at chain index 3. -/
theorem seeding_ten_chains_witness :
    (3 < 10) ∧
    (((populate_db 10).db.persons[3]?).map PersonRow.name = some ("test" ++ toString 3) ∧
      ((populate_db 10).db.companies[3]?).map CompanyRow.name = some ("company" ++ toString 3) ∧
      ((populate_db 10).db.users[3]?).map UserRow.person_id
        = ((populate_db 10).db.persons[3]?).map PersonRow.id ∧
      ((populate_db 10).db.accounts[3]?).map AccountRow.company_id
        = ((populate_db 10).db.companies[3]?).map CompanyRow.id ∧
      ((populate_db 10).db.userAccounts[3]?).map UserAccountRow.user_id
        = ((populate_db 10).db.users[3]?).map UserRow.id ∧
      ((populate_db 10).db.userAccounts[3]?).map UserAccountRow.account_id
        = ((populate_db 10).db.accounts[3]?).map AccountRow.id) :=
  ⟨by decide, seeding_ten_chains.2.2.2.2.2.1 3 (by decide)⟩

/-- C6: With N=0 seeded chains each of the three scenarios obtains no first
result, performs no relation dereference, and reports a statement count of
exactly 1, reflecting only the initial select. -/
theorem n_zero_single_statement :
    simple_query (seededStore 0) = 1 ∧
    joinedload_query (seededStore 0) = 1 ∧
    eager_query (seededStore 0) = 1 ∧
    (get_query (seededStore 0) none).rows = [] ∧
    (runScenario (seededStore 0) none).2 = none ∧
    (runScenario (seededStore 0) (some joinedOpts)).2 = none ∧
    (runScenario (seededStore 0) (some eagerOpts)).2 = none := by
  decide

/-- C7 counterexample: on a store holding a person with no linked user, the
chain dereference does not silently short-circuit; it produces an error
(`AttributeError` on `None`), so the claim that no error is raised is false
at this concrete input. -/
theorem deref_missing_link_errors_counterexample :
    (derefChain { emptyStore with persons := [{ id := 1, name := "test0" }] }
      { id := 1, name := "test0" }).isOk = false := by
  decide

/-- C7 (amended): the chain dereference
`person.user.my_accounts[0].account.company.name` succeeds only when every
link of the relation chain is present in the store; any missing linkage makes
it fail with an unguarded attribute-access or index error instead of silently
short-circuiting. -/
theorem deref_succeeds_only_with_full_chain (store : Store) (p : PersonRow)
    (h : (derefChain store p).isOk = true) :
    ∃ u ∈ store.users, u.person_id = p.id ∧
      ∃ ua ∈ store.userAccounts, ua.user_id = u.id ∧
        ∃ a ∈ store.accounts, a.id = ua.account_id ∧
          ∃ c ∈ store.companies, c.id = a.company_id := by
  unfold derefChain at h
  split at h
  next h1 => simp [Except.isOk, Except.toBool] at h
  next u h1 =>
    split at h
    next h2 => simp [Except.isOk, Except.toBool] at h
    next ua h2 =>
      split at h
      next h3 => simp [Except.isOk, Except.toBool] at h
      next a h3 =>
        split at h
        next h4 => simp [Except.isOk, Except.toBool] at h
        next c h4 =>
          have hu_mem := List.mem_of_find?_eq_some h1
          have hu_link : u.person_id = p.id := by
            simpa [beq_iff_eq] using List.find?_some h1
          have hua_mem' : ua ∈ store.userAccounts.filter fun x => x.user_id == u.id :=
            List.mem_of_mem_head? (by rw [h2]; rfl)
          obtain ⟨hua_mem, hua_link⟩ := List.mem_filter.mp hua_mem'
          have ha_mem := List.mem_of_find?_eq_some h3
          have ha_link : a.id = ua.account_id := by
            simpa [beq_iff_eq] using List.find?_some h3
          have hc_mem := List.mem_of_find?_eq_some h4
          have hc_link : c.id = a.company_id := by
            simpa [beq_iff_eq] using List.find?_some h4
          exact ⟨u, hu_mem, hu_link, ua, hua_mem,
            by simpa [beq_iff_eq] using hua_link, a, ha_mem, ha_link, c, hc_mem, hc_link⟩

/-- Witness for C7 (amended): on the singly seeded store the dereference of
person 1 succeeds, and the full chain is present. -/
theorem deref_succeeds_only_with_full_chain_witness :
    (derefChain (seededStore 1) (personAt 0)).isOk = true ∧
    (∃ u ∈ (seededStore 1).users, u.person_id = (personAt 0).id ∧
      ∃ ua ∈ (seededStore 1).userAccounts, ua.user_id = u.id ∧
        ∃ a ∈ (seededStore 1).accounts, a.id = ua.account_id ∧
          ∃ c ∈ (seededStore 1).companies, c.id = a.company_id) :=
  ⟨by decide, deref_succeeds_only_with_full_chain (seededStore 1) (personAt 0) (by decide)⟩

/-- C8 counterexample: the claim calls the seeded account status a
seven-character string; the account actually created by `populate_db` has the
four-character status `x`, `\x7b`, `i`, `\x7d`, so not every seeded account
has a status of length 7. -/
theorem account_status_seven_chars_counterexample :
    ¬ (∀ a ∈ (populate_db 1).db.accounts, a.status.length = 7) := by
  decide

/-- C8 (amended): every Account row created by `populate_db` has status equal
to the literal four-character string of `x` followed by a left brace, `i` and
a right brace — the placeholder is not interpolated, so all accounts share
one identical status — and that status still satisfies the query's
case-insensitive `x%` prefix filter. -/
theorem account_status_uninterpolated (n : Nat) (a : AccountRow)
    (h : a ∈ (populate_db n).db.accounts) :
    a.status = "x\x7bi\x7d" ∧ a.status.length = 4 ∧ ilike a.status "x%" = true := by
  rw [populate_db_eq] at h
  simp only [List.mem_map] at h
  obtain ⟨i, hi, rfl⟩ := h
  refine ⟨rfl, rfl, ?_⟩
  rw [show (accountAt i).status = "x\x7bi\x7d" from rfl]
  decide

/-- Witness for C8 (amended): the first account of the singly seeded store. -/
theorem account_status_uninterpolated_witness :
    accountAt 0 ∈ (populate_db 1).db.accounts ∧
    ((accountAt 0).status = "x\x7bi\x7d" ∧ (accountAt 0).status.length = 4 ∧
      ilike (accountAt 0).status "x%" = true) :=
  ⟨by decide, account_status_uninterpolated 1 (accountAt 0) (by decide)⟩

/-- C9: the counter's count is never reset and is monotonically non-decreasing
over any event sequence; `__enter__` does not zero the count, `__exit__`
keeps it, and re-entering the same counter accumulates on top of the previous
total (k statements in a first scope, then exit, re-enter and one more
statement give k+1 in total); `get_count` returns the cumulative total. -/
theorem counter_monotone_accumulates (c : DBStatementCounter) (es : List CEvent) (k : Nat) :
    c.count ≤ (runEvents c es).count ∧
    c.enter.count = c.count ∧
    c.exit.count = c.count ∧
    ((runEvents c.enter (List.replicate k CEvent.exec)).exit.enter.callback).count
      = c.count + k + 1 ∧
    (runEvents c es).get_count = (runEvents c es).count := by
  refine ⟨runEvents_count_le c es, rfl, rfl, ?_, rfl⟩
  have h := runEvents_exec_count k c.enter rfl
  have h2 : ((runEvents c.enter (List.replicate k CEvent.exec)).exit.enter.callback).count
      = (runEvents c.enter (List.replicate k CEvent.exec)).count + 1 :=
    callback_count_of_do_count _ rfl
  rw [h2, h]
  rfl

/-- C10: `get_query` with `options=None` and `get_query` with `options=[]`
return identical queries: the absence of loading-strategy directives is
exactly the empty directive list. -/
theorem get_query_none_eq_empty (store : Store) :
    get_query store none = get_query store (some []) :=
  rfl
